import Mathlib

/-!
Verification of the MRZ/ID-OCR server (`src/server.py`).

Text is modelled as `List Char` (Python `str`).  Pure text-processing
functions of the server are translated directly; fallible Python code
(code that can raise) is translated into `Except String _`.  The
wall-clock value `date.today().year % 100` is passed explicitly as a
`nowyy` parameter.  Character-class tests (`\d`, `\w`, whitespace,
`str.upper`) are modelled over their ASCII behaviour, which is the
range the MRZ/DNI data of this server lives in.
-/

/-- ASCII digit `0`-`9` (Python regex `\d`, restricted to ASCII). -/
def isAsciiDigit (c : Char) : Bool := 48 ≤ c.toNat && c.toNat ≤ 57

/-- ASCII uppercase letter `A`-`Z`. -/
def isUpperAZ (c : Char) : Bool := 65 ≤ c.toNat && c.toNat ≤ 90

/-- Python `str.strip` whitespace (ASCII part): space, tab, LF, CR, VT, FF. -/
def isPyWs (c : Char) : Bool :=
  c.toNat = 32 || c.toNat = 9 || c.toNat = 10 || c.toNat = 13 || c.toNat = 11 || c.toNat = 12

/-- Python `str.upper`, ASCII part: maps `a`-`z` to `A`-`Z`. -/
def pyUpper (c : Char) : Char :=
  if 97 ≤ c.toNat && c.toNat ≤ 122 then Char.ofNat (c.toNat - 32) else c

/-- Strip `isPyWs` characters from both ends (Python `str.strip()`). -/
def pyStripL (l : List Char) : List Char :=
  ((l.dropWhile isPyWs).reverse.dropWhile isPyWs).reverse

/-- Decimal value of a digit string (`int` on an all-digit string). -/
def digitsVal : List Char → Nat
  | [] => 0
  | c :: cs => (c.toNat - 48) * 10 ^ cs.length + digitsVal cs

/-- Digit-run parse: `some` value iff nonempty and all ASCII digits. -/
def parseDigits (l : List Char) : Option Nat :=
  if l ≠ [] && l.all isAsciiDigit then some (digitsVal l) else none

/-- Python `int(s)` on a short string: strip whitespace, optional sign,
then a nonempty digit run.  (Underscore digit-grouping and non-ASCII
digits are not modelled; in `server.py` every `int` call receives a
string of length at most 2, where they behave identically.) -/
def pythonInt (l : List Char) : Option Int :=
  match pyStripL l with
  | [] => none
  | c :: rest =>
    if c.toNat = 43 then (parseDigits rest).map Int.ofNat
    else if c.toNat = 45 then (parseDigits rest).map (fun n => -(n : Int))
    else (parseDigits (c :: rest)).map Int.ofNat

/-- Decimal digit character of `d < 10`. -/
def decDigitChar (d : Nat) : Char := Char.ofNat (48 + d)

/-- Fuel-driven digit emitter: most significant digit first; empty on
`n = 0` or fuel exhaustion. -/
def natDecGo : Nat → Nat → List Char
  | 0, _ => []
  | f + 1, n => if n = 0 then [] else natDecGo f (n / 10) ++ [decDigitChar (n % 10)]

/-- Decimal representation of a natural number (Python `str(n)`). -/
def natDec (n : Nat) : List Char :=
  if n = 0 then ['0'] else natDecGo (n + 1) n

/-- Decimal representation of an integer (Python `str(i)`). -/
def intDec (i : Int) : List Char :=
  if i < 0 then '-' :: natDec i.natAbs else natDec i.toNat

/-- Python `f"{n:0wd}"`: decimal of `n`, left zero-padded to width `w`. -/
def pyFmtZ (w : Nat) (n : Nat) : List Char :=
  List.replicate (w - (natDec n).length) '0' ++ natDec n

/-- `server.py:91-96`.  `normalize_date_mrz(yyMMdd)`; `nowyy` is
`date.today().year % 100`.  `int(yyMMdd[:2])` can raise `ValueError`,
hence the `Except`.  The month/day slices are copied verbatim. -/
def normalize_date_mrz (nowyy : Nat) (yyMMdd : Option (List Char)) :
    Except String (Option (List Char)) :=
  match yyMMdd with
  | none => .ok none
  | some l =>
    if l.length ≠ 6 then .ok none
    else
      match pythonInt (l.take 2) with
      | none => .error "ValueError"
      | some yy =>
        let mm := (l.drop 2).take 2
        let dd := (l.drop 4).take 2
        let century : Int := if yy ≤ (nowyy : Int) then 2000 else 1900
        .ok (some (intDec (century + yy) ++ '-' :: (mm ++ '-' :: dd)))

/-- Separator class `[.\-\/ ]` of `DATE_RE` / `normalize_date_guess`. -/
def isDateSep (c : Char) : Bool :=
  c.toNat = 46 || c.toNat = 45 || c.toNat = 47 || c.toNat = 32

/-- `\d{1,2}` (greedily, length `k`) followed by one separator:
returns the digit group and the remainder after the separator. -/
def matchG12 (l : List Char) (k : Nat) : Option (List Char × List Char) :=
  let g := l.take k
  if g.length = k && g.all isAsciiDigit then
    match l.drop k with
    | c :: rest => if isDateSep c then some (g, rest) else none
    | [] => none
  else none

/-- One greedy candidate for the trailing `\d{2,4}` group. -/
def g3Try (l : List Char) (k : Nat) : Option (List Char) :=
  if (l.take k).length = k && (l.take k).all isAsciiDigit then some (l.take k) else none

/-- Trailing `\d{2,4}` group, greedy: 4, then 3, then 2 digits. -/
def matchG3 (l : List Char) : Option (List Char) :=
  match g3Try l 4 with
  | some g => some g
  | none =>
    match g3Try l 3 with
    | some g => some g
    | none => g3Try l 2

/-- Tail of the date pattern after the first separator, with the second
group taking `k` digits. -/
def tailWith (rest : List Char) (k : Nat) : Option (List Char × List Char) :=
  match matchG12 rest k with
  | none => none
  | some (g2, r2) =>
    match matchG3 r2 with
    | none => none
    | some g3 => some (g2, g3)

/-- Tail of the date pattern: `\d{1,2}` (greedy, so 2 then 1) followed
by a separator and `\d{2,4}`. -/
def matchTail (rest : List Char) : Option (List Char × List Char) :=
  match tailWith rest 2 with
  | some x => some x
  | none => tailWith rest 1

/-- Date pattern anchored at the current position, with the first group
taking `k` digits. -/
def dateAtWith (l : List Char) (k : Nat) : Option (List Char × List Char × List Char) :=
  match matchG12 l k with
  | none => none
  | some (g1, r1) =>
    match matchTail r1 with
    | none => none
    | some (g2, g3) => some (g1, g2, g3)

/-- `(\d{1,2})[.\-\/ ](\d{1,2})[.\-\/ ](\d{2,4})` anchored at the
current position (greedy first group: 2 digits, then 1). -/
def matchDateAt (l : List Char) : Option (List Char × List Char × List Char) :=
  match dateAtWith l 2 with
  | some x => some x
  | none => dateAtWith l 1

/-- `re.search` of `DATE_RE`: leftmost match of the date pattern. -/
def reSearchDate : List Char → Option (List Char × List Char × List Char)
  | [] => none
  | c :: rest =>
    match matchDateAt (c :: rest) with
    | some x => some x
    | none => reSearchDate rest

/-- `server.py:78-89`.  `normalize_date_guess(datestr)`; `nowyy` is
`date.today().year % 100`.  The `try` around the f-string is dead code
(formatting an int never raises), so no `Except` is needed. -/
def normalize_date_guess (nowyy : Nat) (datestr : Option (List Char)) :
    Option (List Char) :=
  match datestr with
  | none => none
  | some l =>
    if l = [] then none
    else
      match reSearchDate l with
      | none => none
      | some (g1, g2, g3) =>
        let dd := digitsVal g1
        let mm := digitsVal g2
        let yy0 := digitsVal g3
        let yy := if yy0 < 100 then (if yy0 ≤ nowyy then 2000 + yy0 else 1900 + yy0) else yy0
        some (pyFmtZ 4 yy ++ '-' :: (pyFmtZ 2 mm ++ '-' :: pyFmtZ 2 dd))

/-- Python `str.splitlines` line-break characters (ASCII part plus
NEL/LS/PS). -/
def isLineBreak (c : Char) : Bool :=
  c.toNat = 10 || c.toNat = 13 || c.toNat = 11 || c.toNat = 12 ||
  c.toNat = 28 || c.toNat = 29 || c.toNat = 30 || c.toNat = 133 ||
  c.toNat = 8232 || c.toNat = 8233

/-- Worker for `pySplitlines`; `acc` is the current line, reversed. -/
def pySplitlinesGo (acc : List Char) : List Char → List (List Char)
  | [] => if acc.isEmpty then [] else [acc.reverse]
  | '\r' :: '\n' :: rest => acc.reverse :: pySplitlinesGo [] rest
  | c :: rest =>
    if isLineBreak c then acc.reverse :: pySplitlinesGo [] rest
    else pySplitlinesGo (c :: acc) rest

/-- Python `str.splitlines()`: no trailing empty line, `\r\n` is one break. -/
def pySplitlines (l : List Char) : List (List Char) := pySplitlinesGo [] l

/-- MRZ vocabulary `A`-`Z`, `0`-`9`, `<` (`sanitize_line`'s regex class). -/
def isMrzVocab (c : Char) : Bool := isUpperAZ c || isAsciiDigit c || c.toNat = 60

/-- `server.py:99-100`.  `sanitize_line(s)`: uppercase, then delete every
character outside `[A-Z0-9<]`. -/
def sanitize_line (l : List Char) : List Char := (l.map pyUpper).filter isMrzVocab

/-- `server.py:102-106`.  `normalize_td1_line(line)`.  The padding branch
executes `s.length`, which does not exist on Python `str`, so any input
whose sanitized form is shorter than 30 raises `AttributeError`. -/
def normalize_td1_line (line : List Char) : Except String (List Char) :=
  let s := sanitize_line line
  let s2 := if s.length > 30 then s.take 30 else s
  if s2.length < 30 then .error "AttributeError" else .ok s2

/-- `l[:30].ljust(30, '<')` (`server.py:119`). -/
def coerce30 (l : List Char) : List Char :=
  l.take 30 ++ List.replicate (30 - (l.take 30).length) '<'

/-- Truthiness of `l.strip()`: the line has a non-whitespace character. -/
def lineNonBlank (l : List Char) : Bool := l.any (fun c => !isPyWs c)

/-- `server.py:117-120`.  The text post-processing of
`ocr_bottom_mrz_lines_fast`, applied to the raw OCR output `txt`:
keep non-blank lines, sanitize each, keep the last 3, coerce each to
exactly 30 characters. -/
def ocr_bottom_mrz_lines_fast_post (txt : List Char) : List (List Char) :=
  let lines := ((pySplitlines txt).filter lineNonBlank).map sanitize_line
  let lines2 := if lines.length > 3 then lines.drop (lines.length - 3) else lines
  lines2.map coerce30

/-- Length of the longest run of `<` in a line. -/
def maxFillerRunGo (cur best : Nat) : List Char → Nat
  | [] => max cur best
  | c :: rest =>
    if c.toNat = 60 then maxFillerRunGo (cur + 1) best rest
    else maxFillerRunGo 0 (max cur best) rest

/-- Length of the longest run of the filler `<` in a line. -/
def maxFillerRun (l : List Char) : Nat := maxFillerRunGo 0 0 l

/-- One pass of the `for p in params` loops of `try_read_mrz`
(`server.py:124-127` and `131-134`): call `read_mrz` for each psm in
order, stop at the first non-null result; also record the attempts
made, as (rotated?, psm) pairs. -/
def runAttempts {α : Type} (read : Bool → Nat → Option α) (rot : Bool) :
    List Nat → Option α × List (Bool × Nat)
  | [] => (none, [])
  | p :: ps =>
    match read rot p with
    | some v => (some v, [(rot, p)])
    | none =>
      let r := runAttempts read rot ps
      (r.1, (rot, p) :: r.2)

/-- `server.py:122-135`.  `try_read_mrz(bytes_jpg, psm_list)`: try each
psm on the image, then each psm on the 180°-rotated image, returning
the first non-null `read_mrz` result; the external `read_mrz` call is
the oracle `read : rotated? → psm → Option α`.  The attempt trace is
returned alongside the result. -/
def try_read_mrz {α : Type} (read : Bool → Nat → Option α) (psmList : List Nat) :
    Option α × List (Bool × Nat) :=
  let r1 := runAttempts read false psmList
  match r1.1 with
  | some v => (some v, r1.2)
  | none =>
    let r2 := runAttempts read true psmList
    (r2.1, r1.2 ++ r2.2)

/-- The attempt matrix of `try_read_mrz`: every psm at 0°, then every
psm at 180°. -/
def attemptOrder (psms : List Nat) : List (Bool × Nat) :=
  psms.map (fun p => (false, p)) ++ psms.map (fun p => (true, p))

/-- The i-th attempt of the default cascade (psm 6, 7, 11). -/
def attAt (i : Nat) : Bool × Nat := (attemptOrder [6, 7, 11]).getD i (false, 0)

/-- Latin letters with diacritics and their base letters; models
`unicodedata.normalize('NFD', ·)` followed by dropping combining marks
for the character set of Spanish identity documents (identity on every
other character, in particular on all of ASCII). -/
def deaccentPairs : List (Char × Char) :=
  [('Á', 'A'), ('É', 'E'), ('Í', 'I'), ('Ó', 'O'), ('Ú', 'U'), ('Ü', 'U'), ('Ñ', 'N'),
   ('À', 'A'), ('È', 'E'), ('Ì', 'I'), ('Ò', 'O'), ('Ù', 'U'),
   ('Â', 'A'), ('Ê', 'E'), ('Î', 'I'), ('Ô', 'O'), ('Û', 'U'),
   ('Ä', 'A'), ('Ë', 'E'), ('Ï', 'I'), ('Ö', 'O'), ('Ç', 'C'),
   ('á', 'a'), ('é', 'e'), ('í', 'i'), ('ó', 'o'), ('ú', 'u'), ('ü', 'u'), ('ñ', 'n'),
   ('à', 'a'), ('è', 'e'), ('ì', 'i'), ('ò', 'o'), ('ù', 'u'),
   ('â', 'a'), ('ê', 'e'), ('î', 'i'), ('ô', 'o'), ('û', 'u'),
   ('ä', 'a'), ('ë', 'e'), ('ï', 'i'), ('ö', 'o'), ('ç', 'c')]

/-- `server.py:72-73`.  `deaccent(s)`, character-wise. -/
def charDeaccent (c : Char) : Char :=
  (((deaccentPairs.find? (fun p => p.1 = c)).map Prod.snd)).getD c

/-- `server.py:72-73`.  `deaccent(s)`. -/
def deaccent (l : List Char) : List Char := l.map charDeaccent

/-- Python regex `\w` (ASCII part): letters, digits, underscore. -/
def isWordChar (c : Char) : Bool :=
  isAsciiDigit c || isUpperAZ c || (97 ≤ c.toNat && c.toNat ≤ 122) || c.toNat = 95

/-- Character kept by `upclean`'s `re.sub(r"[^\w\s\-\(\)\/\.]", " ", ·)`. -/
def keepUpclean (c : Char) : Bool :=
  isWordChar c || isPyWs c || c.toNat = 45 || c.toNat = 40 || c.toNat = 41 ||
  c.toNat = 47 || c.toNat = 46

/-- `server.py:75-76`.  `upclean(s)`: deaccent, uppercase, then replace
every character outside `[\w\s\-\(\)\/\.]` with a space. -/
def upclean (l : List Char) : List Char :=
  ((deaccent l).map pyUpper).map (fun c => if keepUpclean c then c else ' ')

/-- Substring test (`tag in l` / existence of a literal-alternation
regex match). -/
def containsSub (l sub : List Char) : Bool :=
  match l with
  | [] => sub.isEmpty
  | _ :: rest => sub.isPrefixOf l || containsSub rest sub

/-- `server.py:147`.  The `LABEL_CUTS` tuple. -/
def LABEL_CUTS : List (List Char) :=
  ["LUGAR DE NACIMIENTO".data, "LUGAR  DE  NACIMIENTO".data,
   "LUGAR DE  NACIMIENTO".data, "LUGAR  DE NACIMIENTO".data, "LUGAR NACIMIENTO".data]

/-- `server.py:149-157`.  `split_residence_section(back_text)`: the
non-blank lines of `upclean(back_text)` up to (excluding) the first
line containing a `LABEL_CUTS` tag. -/
def split_residence_section (back : List Char) : List (List Char) :=
  let lines := (pySplitlines (upclean back)).filter lineNonBlank
  lines.takeWhile (fun l => !(LABEL_CUTS.any (fun tag => containsSub l tag)))

/-- `server.py:159`.  The street-keyword alternatives of `ADDRESS_WORDS`. -/
def ADDRESS_WORDS : List (List Char) :=
  ["CALLE".data, "CL".data, "C/".data, "AVENIDA".data, "AVDA".data, "AVD".data,
   "PLAZA".data, "PZA".data, "CAMINO".data, "CMNO".data, "CARRETERA".data,
   "CTRA".data, "CRTA".data, "PGNO".data, "POLIGONO".data, "URBANIZACION".data,
   "URB".data, "BARRIO".data, "RONDA".data, "PASAJE".data, "PJE".data,
   "TRAVESIA".data, "TRV".data]

/-- The label keywords excluded by `likely_address_line`. -/
def EXCLUDE_WORDS : List (List Char) :=
  ["NACIONALIDAD".data, "NOMBRE".data, "APELLIDOS".data, "DOCUMENTO".data,
   "IDENTITY".data, "CARD".data, "NUM SOPORTE".data, "SOPORTE".data,
   "LUGAR".data, "NACIMIENTO".data]

/-- `server.py:163-168`.  `likely_address_line(u)`. -/
def likely_address_line (u : List Char) : Bool :=
  if EXCLUDE_WORDS.any (fun k => containsSub u k) then false
  else if ADDRESS_WORDS.any (fun k => containsSub u k) then true
  else if u.any isAsciiDigit then true
  else (8 ≤ u.length && u.length ≤ 45) && (u.map pyUpper = u : Bool)

/-- Second half of the address loop (`server.py:176-182`): a first
address line has been taken; take one more consecutive likely line. -/
def collectAddrNext : List (List Char) → List (List Char)
  | [] => []
  | l :: _ =>
    let u := pyStripL l
    if likely_address_line u then [u] else []

/-- The address loop of `extract_address_residence`
(`server.py:175-182`): scan to the first likely address line, then take
at most one more consecutive likely line. -/
def collectAddr : List (List Char) → List (List Char)
  | [] => []
  | l :: rest =>
    let u := pyStripL l
    if likely_address_line u then u :: collectAddrNext rest
    else collectAddr rest

/-- Run classifier used by `collapseWs`. -/
def wsRunToSpace (g : List Char) : List Char :=
  if (g.head?.elim false isPyWs) && 2 ≤ g.length then [' '] else g

/-- `re.sub(r"\s{2,}", " ", ·)`: each run of 2 or more whitespace
characters becomes a single space; single whitespace is untouched. -/
def collapseWs (l : List Char) : List Char :=
  ((l.splitBy (fun a b => isPyWs a == isPyWs b)).map wsRunToSpace).flatten

/-- `\b(\d{5})\b` at the current position: five digits with a non-word
character (or the string edge) on each side; `prevIsWord` tells whether
the previous character was a word character. -/
def cpAt (prevIsWord : Bool) (l : List Char) : Bool :=
  !prevIsWord && (l.take 5).length = 5 && (l.take 5).all isAsciiDigit &&
    (match l.drop 5 with
     | [] => true
     | d :: _ => !isWordChar d)

/-- Leftmost-scan worker for `findCp`. -/
def findCpGo (prevIsWord : Bool) : List Char → Option (List Char)
  | [] => none
  | c :: rest =>
    if cpAt prevIsWord (c :: rest) then some ((c :: rest).take 5)
    else findCpGo (isWordChar c) rest

/-- `re.search(CP_RE, ·)` (`server.py:160,188-190`): leftmost
`\b(\d{5})\b` match. -/
def findCp (l : List Char) : Option (List Char) := findCpGo false l

/-- `server.py:138-144`.  The `PROVINCIAS` gazetteer. -/
def PROVINCIAS : List (List Char) :=
  ["ALAVA".data, "ALBACETE".data, "ALICANTE".data, "ALMERIA".data, "ASTURIAS".data,
   "AVILA".data, "BADAJOZ".data, "BARCELONA".data, "BURGOS".data, "CACERES".data,
   "CADIZ".data, "CANTABRIA".data, "CASTELLON".data, "CEUTA".data, "CIUDAD REAL".data,
   "CORDOBA".data, "CUENCA".data, "GIRONA".data, "GRANADA".data, "GUADALAJARA".data,
   "GUIPUZCOA".data, "HUELVA".data, "HUESCA".data, "ILLES BALEARS".data, "JAEN".data,
   "LA CORUNA".data, "A CORUNA".data, "LA RIOJA".data, "LAS PALMAS".data, "LEON".data,
   "LLEIDA".data, "LUGO".data, "MADRID".data, "MALAGA".data, "MELILLA".data,
   "MURCIA".data, "NAVARRA".data, "OURENSE".data, "PALENCIA".data, "PONTEVEDRA".data,
   "SALAMANCA".data, "SEGOVIA".data, "SEVILLA".data, "SORIA".data, "TARRAGONA".data,
   "SANTA CRUZ DE TENERIFE".data, "TERUEL".data, "TOLEDO".data, "VALENCIA".data,
   "VALLADOLID".data, "VIZCAYA".data, "BIZKAIA".data, "ZAMORA".data, "ZARAGOZA".data,
   "ARABA".data]

/-- Membership of a line in the `PROVINCIAS` set. -/
def inProvincias (l : List Char) : Bool := PROVINCIAS.any (fun p => p = l)

/-- `server.py:170-201`.  `extract_address_residence(back_text)`,
returning `(domicilio, cp, localidad, provincia)`. -/
def extract_address_residence (back : List Char) :
    Option (List Char) × Option (List Char) × Option (List Char) × Option (List Char) :=
  let res_lines := split_residence_section back
  let addr_lines := collectAddr res_lines
  let domicilio :=
    if addr_lines.isEmpty then none
    else some (pyStripL (collapseWs (List.intercalate [' '] addr_lines)))
  let joined := List.intercalate ['\n'] res_lines
  let cp := findCp joined
  let upp0 := res_lines.filter (fun l => (l.map pyUpper = l : Bool) && !(l.any (fun c => c.toNat = 60)))
  let upp := (upp0.filter (fun l => 3 ≤ (pyStripL l).length && !(l.any isAsciiDigit))).map
    (fun l => pyStripL (collapseWs l))
  let prov := upp.find? (fun l => inProvincias (deaccent l))
  let loc :=
    match prov with
    | none => none
    | some p => upp.find? (fun l => !(l = p : Bool) && !inProvincias (deaccent l))
  (domicilio, cp, loc, prov)

/-- Gap candidate check for `[^A-Z0-9]{0,10}` after `NACIONALIDAD`. -/
def gapOk (rest : List Char) (j : Nat) : Bool :=
  j ≤ rest.length && (rest.take j).all (fun c => !(isUpperAZ c || isAsciiDigit c))

/-- The `([A-Z]{3})` group after a gap of `j` characters. -/
def code3 (rest : List Char) (j : Nat) : Option (List Char) :=
  let t := (rest.drop j).take 3
  if t.length = 3 && t.all isUpperAZ then some t else none

/-- Backtracking over the gap length, longest first (greedy `{0,10}`). -/
def tryGaps (rest : List Char) : Nat → Option (List Char)
  | 0 => if gapOk rest 0 then code3 rest 0 else none
  | j + 1 =>
    match (if gapOk rest (j + 1) then code3 rest (j + 1) else none) with
    | some g => some g
    | none => tryGaps rest j

/-- `NACIONALIDAD[^A-Z0-9]{0,10}([A-Z]{3})` anchored at the current
position. -/
def nacionalidadAt (l : List Char) : Option (List Char) :=
  if l.take 12 = "NACIONALIDAD".data then tryGaps (l.drop 12) 10 else none

/-- `re.search` of the nationality-label pattern: leftmost match. -/
def searchNacionalidad : List Char → Option (List Char)
  | [] => none
  | c :: rest =>
    match nacionalidadAt (c :: rest) with
    | some x => some x
    | none => searchNacionalidad rest

/-- `server.py:203-213`.  `extract_country(front_text, back_text,
mrz_nat)`.  Note the final line: the result defaults to `"ESPAÑA"`. -/
def extract_country (front back : List Char) (mrz_nat : Option (List Char)) :
    List Char :=
  let uf := upclean front
  let _ub := upclean back
  match searchNacionalidad uf with
  | some code => if code = "ESP".data then "ESPAÑA".data else code
  | none =>
    match mrz_nat with
    | some nat =>
      if nat.isEmpty then "ESPAÑA".data
      else if nat.map pyUpper = "ESP".data then "ESPAÑA".data else nat.map pyUpper
    | none => "ESPAÑA".data

/-- The JSON payload of the `/mrz` endpoint (`server.py:312-329` and
`345-362`), with the fields the claims are about. -/
structure MrzResponse where
  ok : Bool
  type : List Char
  doc_code : List Char
  issuing_country : List Char
  numero : List Char
  nacionalidad : List Char
  apellidos : List Char
  nombres : List Char
  sexo : List Char
  nacimiento : Option (List Char)
  expiracion : Option (List Char)
  optional : List Char
  raw : List Char
  raw_ocr : List Char
  mrz_lines : List (List Char)
  optional_td1 : List Char

/-- `server.py:303`.  `fast = (request.args.get("fast", "1") == "1")`. -/
def mrz_fast_flag (fastParam : Option (List Char)) : Bool :=
  (fastParam.getD "1".data) = "1".data

/-- `server.py:305-329`.  The response built in the fast branch of the
`/mrz` handler, as a function of the fast-OCR output `(lines, ocr_raw)`. -/
def mrz_fast_response (lines : List (List Char)) (ocr_raw : List Char) : MrzResponse :=
  let optional_td1 :=
    match lines with
    | [] => []
    | l1 :: _ => ((l1.drop 15).take 15).filter (fun c => !(c.toNat = 60))
  { ok := true
    type := "TD1".data
    doc_code := "I".data
    issuing_country := []
    numero := []
    nacionalidad := []
    apellidos := []
    nombres := []
    sexo := []
    nacimiento := none
    expiracion := none
    optional := []
    raw := []
    raw_ocr := ocr_raw
    mrz_lines := lines
    optional_td1 := optional_td1 }

/-- Days of a month in the proleptic Gregorian calendar (spec-side). -/
def daysInMonth (y m : Nat) : Nat :=
  if m = 2 then (if y % 4 = 0 && (y % 100 ≠ 0 || y % 400 = 0) then 29 else 28)
  else if m = 4 || m = 6 || m = 9 || m = 11 then 30
  else 31

/-- Spec-side predicate, from the spec's words: a valid ISO 8601
calendar date `YYYY-MM-DD` — ten characters, dashes at positions 4 and
7, all other positions digits, month in 01-12 and day valid for that
month and year. -/
def spec_validIsoDate (l : List Char) : Bool :=
  l.length = 10 &&
  (l.take 4).all isAsciiDigit &&
  ((l.drop 4).take 1 == ['-']) &&
  ((l.drop 5).take 2).all isAsciiDigit &&
  ((l.drop 7).take 1 == ['-']) &&
  ((l.drop 8).take 2).all isAsciiDigit &&
  (let y := digitsVal (l.take 4)
   let m := digitsVal ((l.drop 5).take 2)
   let d := digitsVal ((l.drop 8).take 2)
   1 ≤ m && m ≤ 12 && 1 ≤ d && d ≤ daysInMonth y m)

/-- Shape of the output of the date normalizers: ten characters,
four-digit year, dashes at positions 4 and 7 (the month/day components
are not constrained and in particular not range-checked). -/
def dateShapeYear (l : List Char) : Bool :=
  l.length = 10 && (l.take 4).all isAsciiDigit &&
  ((l.drop 4).take 1 == ['-']) && ((l.drop 7).take 1 == ['-'])

/-- `dateShapeYear` plus all-digit month and day components. -/
def dateShapeDigits (l : List Char) : Bool :=
  dateShapeYear l && ((l.drop 5).take 2).all isAsciiDigit &&
  ((l.drop 8).take 2).all isAsciiDigit

/-- Output shape of `normalize_date_guess`: absent or `dateShapeDigits`. -/
def guessShapeOk : Option (List Char) → Bool
  | none => true
  | some l => dateShapeDigits l

/-- Output shape of `normalize_date_mrz`: raised, absent, or
`dateShapeYear`. -/
def mrzShapeOk : Except String (Option (List Char)) → Bool
  | .error _ => true
  | .ok none => true
  | .ok (some l) => dateShapeYear l

/-- A well-formed fallback MRZ line: exactly 30 characters, all in the
MRZ vocabulary. -/
def fastLineOk (l : List Char) : Bool := l.length = 30 && l.all isMrzVocab

lemma isPyWs_false_of_digit {c : Char} (h : isAsciiDigit c = true) : isPyWs c = false := by
  simp only [isAsciiDigit, Bool.and_eq_true, decide_eq_true_eq] at h
  simp only [isPyWs, Bool.or_eq_false_iff, decide_eq_false_iff_not]
  omega

lemma pyStripL_eq_self {l : List Char} (h : ∀ c ∈ l, isPyWs c = false) :
    pyStripL l = l := by
  have h1 : l.dropWhile isPyWs = l := by
    cases l with
    | nil => rfl
    | cons a t => simp [List.dropWhile_cons, h a (by simp)]
  have h2 : l.reverse.dropWhile isPyWs = l.reverse := by
    cases hr : l.reverse with
    | nil => rfl
    | cons a t =>
      have ha : a ∈ l := by
        rw [← List.mem_reverse, hr]; simp
      simp [List.dropWhile_cons, h a ha]
  rw [pyStripL, h1, h2, List.reverse_reverse]

lemma digitsVal_lt : ∀ {l : List Char}, l.all isAsciiDigit = true →
    digitsVal l < 10 ^ l.length := by
  intro l
  induction l with
  | nil => intro _; simp [digitsVal]
  | cons c cs ih =>
    intro h
    simp only [List.all_cons, Bool.and_eq_true] at h
    have hc : c.toNat - 48 ≤ 9 := by
      have h1 := h.1
      simp only [isAsciiDigit, Bool.and_eq_true, decide_eq_true_eq] at h1
      omega
    have h2 := ih h.2
    have h3 : digitsVal (c :: cs) = (c.toNat - 48) * 10 ^ cs.length + digitsVal cs := rfl
    have h4 : 10 ^ (c :: cs).length = 10 * 10 ^ cs.length := by
      simp [List.length_cons, Nat.pow_succ]
      ring
    rw [h3, h4]
    have h5 : (c.toNat - 48) * 10 ^ cs.length ≤ 9 * 10 ^ cs.length :=
      Nat.mul_le_mul_right _ hc
    omega

lemma parseDigits_eq_some {l : List Char} {n : Nat} (h : parseDigits l = some n) :
    l ≠ [] ∧ l.all isAsciiDigit = true ∧ n = digitsVal l := by
  by_cases hc : (l ≠ [] && l.all isAsciiDigit) = true
  · simp only [Bool.and_eq_true, ne_eq, decide_eq_true_eq] at hc
    refine ⟨hc.1, hc.2, ?_⟩
    simp only [parseDigits] at h
    rw [if_pos] at h
    · exact (Option.some_inj.mp h).symm
    · simp [hc.1, hc.2]
  · exfalso
    simp only [parseDigits] at h
    rw [if_neg hc] at h
    exact Option.noConfusion h

lemma pythonInt_all_digits {l : List Char} (hall : l.all isAsciiDigit = true)
    (hne : l ≠ []) : pythonInt l = some (Int.ofNat (digitsVal l)) := by
  have hsa : pyStripL l = l := by
    apply pyStripL_eq_self
    intro c hc
    exact isPyWs_false_of_digit (by
      rw [List.all_eq_true] at hall
      exact hall c hc)
  rw [pythonInt, hsa]
  cases l with
  | nil => exact absurd rfl hne
  | cons c rest =>
    have hc : isAsciiDigit c = true := by
      rw [List.all_eq_true] at hall
      exact hall c (by simp)
    have hcn : 48 ≤ c.toNat ∧ c.toNat ≤ 57 := by
      simpa [isAsciiDigit] using hc
    have h43 : ¬ c.toNat = 43 := by omega
    have h45 : ¬ c.toNat = 45 := by omega
    simp only [h43, h45, if_false]
    have : parseDigits (c :: rest) = some (digitsVal (c :: rest)) := by
      simp [parseDigits, hall]
    simp [this]

lemma decDigitChar_digit {d : Nat} (h : d < 10) : isAsciiDigit (decDigitChar d) = true := by
  interval_cases d <;> decide

lemma natDecGo_all : ∀ (f n : Nat), (natDecGo f n).all isAsciiDigit = true := by
  intro f
  induction f with
  | zero => intro n; rfl
  | succ f ih =>
    intro n
    by_cases hn : n = 0
    · simp [natDecGo, hn]
    · have hd : isAsciiDigit (decDigitChar (n % 10)) = true :=
        decDigitChar_digit (Nat.mod_lt _ (by omega))
      simp [natDecGo, hn, List.all_append, ih, hd]

lemma natDecGo_stable : ∀ (n f g : Nat), n < 10 ^ f → n < 10 ^ g →
    natDecGo f n = natDecGo g n := by
  intro n
  induction n using Nat.strong_induction_on with
  | _ n ih =>
    intro f g hf hg
    by_cases hn : n = 0
    · subst hn
      cases f <;> cases g <;> simp [natDecGo]
    · cases f with
      | zero => simp at hf; omega
      | succ f' =>
        cases g with
        | zero => simp at hg; omega
        | succ g' =>
          have hdiv : n / 10 < n := Nat.div_lt_self (by omega) (by omega)
          have hf' : n / 10 < 10 ^ f' := by
            rw [Nat.div_lt_iff_lt_mul (by omega)]
            calc n < 10 ^ (f' + 1) := hf
            _ = 10 ^ f' * 10 := by rw [Nat.pow_succ]
          have hg' : n / 10 < 10 ^ g' := by
            rw [Nat.div_lt_iff_lt_mul (by omega)]
            calc n < 10 ^ (g' + 1) := hg
            _ = 10 ^ g' * 10 := by rw [Nat.pow_succ]
          simp only [natDecGo, hn, if_false]
          rw [ih (n / 10) hdiv f' g' hf' hg']

lemma natDecGo_len_le : ∀ (f n : Nat), n < 10 ^ f → (natDecGo f n).length ≤ f := by
  intro f
  induction f with
  | zero => intro n h; simp [natDecGo]
  | succ f ih =>
    intro n h
    by_cases hn : n = 0
    · simp [natDecGo, hn]
    · have hf' : n / 10 < 10 ^ f := by
        rw [Nat.div_lt_iff_lt_mul (by omega)]
        calc n < 10 ^ (f + 1) := h
        _ = 10 ^ f * 10 := by rw [Nat.pow_succ]
      have := ih (n / 10) hf'
      simp only [natDecGo, hn, if_false, List.length_append, List.length_cons,
        List.length_nil]
      omega

lemma natDecGo_len_ge : ∀ (f n k : Nat), n < 10 ^ f → 10 ^ k ≤ n →
    k + 1 ≤ (natDecGo f n).length := by
  intro f
  induction f with
  | zero =>
    intro n k h hk
    exfalso
    simp at h
    have : 1 ≤ 10 ^ k := Nat.one_le_pow _ _ (by omega)
    omega
  | succ f ih =>
    intro n k h hk
    have hn : n ≠ 0 := by
      have : 1 ≤ 10 ^ k := Nat.one_le_pow _ _ (by omega)
      omega
    simp only [natDecGo, hn, if_false, List.length_append, List.length_cons,
      List.length_nil]
    cases k with
    | zero => omega
    | succ k' =>
      have hf' : n / 10 < 10 ^ f := by
        rw [Nat.div_lt_iff_lt_mul (by omega)]
        calc n < 10 ^ (f + 1) := h
        _ = 10 ^ f * 10 := by rw [Nat.pow_succ]
      have hk' : 10 ^ k' ≤ n / 10 := by
        rw [Nat.le_div_iff_mul_le (by omega)]
        calc 10 ^ k' * 10 = 10 ^ (k' + 1) := (Nat.pow_succ 10 k').symm
        _ ≤ n := hk
      have := ih (n / 10) k' hf' hk'
      omega

lemma natDec_all (n : Nat) : (natDec n).all isAsciiDigit = true := by
  by_cases hn : n = 0
  · subst hn; decide
  · simp only [natDec, hn, if_false]
    exact natDecGo_all _ _

lemma natDec_self_fuel (n : Nat) (hn : n ≠ 0) {f : Nat} (h : n < 10 ^ f) :
    natDec n = natDecGo f n := by
  simp only [natDec, hn, if_false]
  apply natDecGo_stable
  · calc n < 10 ^ n := Nat.lt_pow_self (by omega) n
    _ ≤ 10 ^ (n + 1) := Nat.pow_le_pow_right (by omega) (by omega)
  · exact h

lemma natDec_len_le {w n : Nat} (hw : 1 ≤ w) (h : n < 10 ^ w) :
    (natDec n).length ≤ w := by
  by_cases hn : n = 0
  · subst hn; simpa [natDec] using hw
  · rw [natDec_self_fuel n hn h]
    exact natDecGo_len_le _ _ h

lemma natDec_len_eq4 {n : Nat} (h1 : 1000 ≤ n) (h2 : n ≤ 9999) :
    (natDec n).length = 4 := by
  have hn : n ≠ 0 := by omega
  have h4 : n < 10 ^ 4 := by norm_num; omega
  rw [natDec_self_fuel n hn h4]
  have hle := natDecGo_len_le 4 n h4
  have hge := natDecGo_len_ge 4 n 3 h4 (by norm_num; omega)
  omega

lemma pyFmtZ_len {w n : Nat} (hw : 1 ≤ w) (h : n < 10 ^ w) :
    (pyFmtZ w n).length = w ∧ (pyFmtZ w n).all isAsciiDigit = true := by
  have hle := natDec_len_le hw h
  constructor
  · simp only [pyFmtZ, List.length_append, List.length_replicate]
    omega
  · simp only [pyFmtZ, List.all_append, Bool.and_eq_true]
    refine ⟨?_, natDec_all n⟩
    rw [List.all_eq_true]
    intro c hc
    rw [List.eq_of_mem_replicate hc]
    decide

lemma intDec_ofNat (n : Nat) : intDec ((n : Nat) : Int) = natDec n := by
  simp [intDec]

lemma pyStripL_length_le (l : List Char) : (pyStripL l).length ≤ l.length := by
  have h1 : (l.dropWhile isPyWs).length ≤ l.length :=
    List.Sublist.length_le (List.dropWhile_sublist _)
  have h2 : ((l.dropWhile isPyWs).reverse.dropWhile isPyWs).length ≤
      (l.dropWhile isPyWs).reverse.length :=
    List.Sublist.length_le (List.dropWhile_sublist _)
  simp only [pyStripL, List.length_reverse]
  simp only [List.length_reverse] at h2
  omega

lemma digitsVal_single {c : Char} (h : isAsciiDigit c = true) : digitsVal [c] ≤ 9 := by
  simp only [isAsciiDigit, Bool.and_eq_true, decide_eq_true_eq] at h
  simp only [digitsVal, List.length_nil, pow_zero, mul_one]
  omega

lemma parseDigits_single_le {d : Char} {n : Nat} (hp : parseDigits [d] = some n) :
    n ≤ 9 := by
  obtain ⟨-, hall, hval⟩ := parseDigits_eq_some hp
  have := digitsVal_single (by simpa using hall)
  omega

lemma pythonInt_bounds {l : List Char} {v : Int} (h : pythonInt l = some v)
    (hl : l.length ≤ 2) : -9 ≤ v ∧ v ≤ 99 := by
  have hsl : (pyStripL l).length ≤ 2 := le_trans (pyStripL_length_le l) hl
  rw [pythonInt] at h
  rcases ht : pyStripL l with _ | ⟨c, _ | ⟨d, _ | ⟨e, t⟩⟩⟩
  · rw [ht] at h; exact Option.noConfusion h
  · rw [ht] at h
    by_cases h43 : c.toNat = 43
    · simp only [h43, if_true] at h
      simp [parseDigits] at h
    · by_cases h45 : c.toNat = 45
      · simp only [h43, if_false, h45, if_true] at h
        simp [parseDigits] at h
      · simp only [h43, h45, if_false] at h
        rcases hp : parseDigits [c] with _ | n
        · rw [hp] at h; exact Option.noConfusion h
        · rw [hp] at h
          have hn := parseDigits_single_le hp
          simp only [Option.map_some'] at h
          have hv : v = Int.ofNat n := (Option.some_inj.mp h).symm
          subst hv
          simp only [Int.ofNat_eq_natCast]
          constructor <;> omega
  · rw [ht] at h
    by_cases h43 : c.toNat = 43
    · simp only [h43, if_true] at h
      rcases hp : parseDigits [d] with _ | n
      · rw [hp] at h; exact Option.noConfusion h
      · rw [hp] at h
        have hn := parseDigits_single_le hp
        simp only [Option.map_some'] at h
        have hv : v = Int.ofNat n := (Option.some_inj.mp h).symm
        subst hv
        simp only [Int.ofNat_eq_natCast]
        constructor <;> omega
    · by_cases h45 : c.toNat = 45
      · simp only [h43, if_false, h45, if_true] at h
        rcases hp : parseDigits [d] with _ | n
        · rw [hp] at h; exact Option.noConfusion h
        · rw [hp] at h
          have hn := parseDigits_single_le hp
          simp only [Option.map_some'] at h
          have hv : v = -(n : Int) := (Option.some_inj.mp h).symm
          subst hv
          constructor <;> omega
      · simp only [h43, h45, if_false] at h
        rcases hp : parseDigits [c, d] with _ | n
        · rw [hp] at h; exact Option.noConfusion h
        · rw [hp] at h
          obtain ⟨-, hall, hval⟩ := parseDigits_eq_some hp
          have hlt : digitsVal [c, d] < 10 ^ ([c, d] : List Char).length :=
            digitsVal_lt hall
          simp only [List.length_cons, List.length_nil] at hlt
          have hn : n < 100 := by
            rw [hval]
            simpa using hlt
          simp only [Option.map_some'] at h
          have hv : v = Int.ofNat n := (Option.some_inj.mp h).symm
          subst hv
          simp only [Int.ofNat_eq_natCast]
          constructor <;> omega
  · exfalso
    rw [ht] at hsl
    simp at hsl

lemma list_len_two {l : List Char} (h : l.length = 2) : ∃ a b, l = [a, b] :=
  List.length_eq_two.mp h

lemma list_len_four {l : List Char} (h : l.length = 4) :
    ∃ a b c d, l = [a, b, c, d] := by
  rcases l with _ | ⟨a, t⟩
  · simp at h
  · have h3 : t.length = 3 := by
      simp only [List.length_cons] at h
      omega
    obtain ⟨b, c, d, rfl⟩ := List.length_eq_three.mp h3
    exact ⟨a, b, c, d, rfl⟩

lemma dateShapeYear_parts {y m d : List Char} (hy : y.length = 4)
    (hya : y.all isAsciiDigit = true) (hm : m.length = 2) (hd : d.length = 2) :
    dateShapeYear (y ++ '-' :: (m ++ '-' :: d)) = true := by
  obtain ⟨y1, y2, y3, y4, rfl⟩ := list_len_four hy
  obtain ⟨m1, m2, rfl⟩ := list_len_two hm
  obtain ⟨d1, d2, rfl⟩ := list_len_two hd
  simp only [List.all_cons, List.all_nil, Bool.and_eq_true, Bool.and_true] at hya
  simp [dateShapeYear, List.all_cons, hya.1, hya.2.1, hya.2.2.1, hya.2.2.2]

lemma dateShapeDigits_parts {y m d : List Char} (hy : y.length = 4)
    (hya : y.all isAsciiDigit = true) (hm : m.length = 2)
    (hma : m.all isAsciiDigit = true) (hd : d.length = 2)
    (hda : d.all isAsciiDigit = true) :
    dateShapeDigits (y ++ '-' :: (m ++ '-' :: d)) = true := by
  obtain ⟨y1, y2, y3, y4, rfl⟩ := list_len_four hy
  obtain ⟨m1, m2, rfl⟩ := list_len_two hm
  obtain ⟨d1, d2, rfl⟩ := list_len_two hd
  simp only [List.all_cons, List.all_nil, Bool.and_eq_true, Bool.and_true] at hya hma hda
  simp [dateShapeDigits, dateShapeYear, List.all_cons, hya.1, hya.2.1, hya.2.2.1,
    hya.2.2.2, hma.1, hma.2, hda.1, hda.2]

/-- C3 helper: on an all-digit 6-character input, `normalize_date_mrz`
computes the century from the first-two-digit value `yy` by the
`yy ≤ nowyy` rule and copies the month/day slices verbatim. -/
lemma normalize_date_mrz_valid_eq (nowyy : Nat) (l : List Char)
    (h6 : l.length = 6) (hd : l.all isAsciiDigit = true) :
    normalize_date_mrz nowyy (some l) =
      .ok (some (natDec ((if digitsVal (l.take 2) ≤ nowyy then 2000 else 1900) +
        digitsVal (l.take 2)) ++ '-' :: ((l.drop 2).take 2 ++ '-' :: (l.drop 4).take 2))) := by
  have htk : (l.take 2).length = 2 := by
    simp [List.length_take, h6]
  have htkall : (l.take 2).all isAsciiDigit = true := by
    rw [List.all_eq_true] at hd ⊢
    intro c hc
    exact hd c (List.mem_of_mem_take hc)
  have htkne : l.take 2 ≠ [] := by
    intro hcon
    rw [hcon] at htk
    simp at htk
  have hint : pythonInt (l.take 2) = some (Int.ofNat (digitsVal (l.take 2))) :=
    pythonInt_all_digits htkall htkne
  have hv100 : digitsVal (l.take 2) < 100 := by
    have := digitsVal_lt htkall
    rw [htk] at this
    simpa using this
  rw [normalize_date_mrz]
  simp only [h6, ne_eq, not_true_eq_false, if_false, hint, reduceCtorEq]
  by_cases hle : digitsVal (l.take 2) ≤ nowyy
  · have hle' : (Int.ofNat (digitsVal (l.take 2))) ≤ (nowyy : Int) := by
      simp only [Int.ofNat_eq_natCast]
      exact_mod_cast hle
    simp only [Int.ofNat_eq_natCast] at hle' ⊢
    rw [if_pos hle', if_pos hle]
    have hcast : (2000 : Int) + (digitsVal (l.take 2) : Int) =
        ((2000 + digitsVal (l.take 2) : Nat) : Int) := by push_cast; ring
    rw [hcast, intDec_ofNat]
  · have hle' : ¬ (Int.ofNat (digitsVal (l.take 2))) ≤ (nowyy : Int) := by
      simp only [Int.ofNat_eq_natCast]
      exact_mod_cast hle
    simp only [Int.ofNat_eq_natCast] at hle' ⊢
    rw [if_neg hle', if_neg hle]
    have hcast : (1900 : Int) + (digitsVal (l.take 2) : Int) =
        ((1900 + digitsVal (l.take 2) : Nat) : Int) := by push_cast; ring
    rw [hcast, intDec_ofNat]

lemma g3Try_some {l g : List Char} {k : Nat} (h : g3Try l k = some g) :
    g.length = k ∧ g.all isAsciiDigit = true := by
  rw [g3Try] at h
  by_cases hc : ((l.take k).length = k && (l.take k).all isAsciiDigit) = true
  · rw [if_pos hc] at h
    obtain rfl := Option.some_inj.mp h
    simpa [Bool.and_eq_true] using hc
  · rw [if_neg hc] at h
    exact Option.noConfusion h

lemma matchG3_some {l g : List Char} (h : matchG3 l = some g) :
    2 ≤ g.length ∧ g.length ≤ 4 ∧ g.all isAsciiDigit = true := by
  rw [matchG3] at h
  rcases h4 : g3Try l 4 with _ | g4 <;> simp only [h4] at h
  · rcases h3 : g3Try l 3 with _ | g3 <;> simp only [h3] at h
    · obtain ⟨hl, ha⟩ := g3Try_some h
      exact ⟨by omega, by omega, ha⟩
    · obtain rfl := Option.some_inj.mp h
      obtain ⟨hl, ha⟩ := g3Try_some h3
      exact ⟨by omega, by omega, ha⟩
  · obtain rfl := Option.some_inj.mp h
    obtain ⟨hl, ha⟩ := g3Try_some h4
    exact ⟨by omega, by omega, ha⟩

lemma matchG12_some {l g r : List Char} {k : Nat} (h : matchG12 l k = some (g, r)) :
    g.length = k ∧ g.all isAsciiDigit = true := by
  simp only [matchG12] at h
  by_cases hc : ((l.take k).length = k && (l.take k).all isAsciiDigit) = true
  · rw [if_pos hc] at h
    rcases hd : l.drop k with _ | ⟨c, rest⟩ <;> simp only [hd] at h
    · exact Option.noConfusion h
    · by_cases hs : isDateSep c = true
      · rw [if_pos hs] at h
        have hpair := Option.some_inj.mp h
        have hg : l.take k = g := congrArg Prod.fst hpair
        rw [← hg]
        simpa [Bool.and_eq_true] using hc
      · rw [if_neg hs] at h
        exact Option.noConfusion h
  · rw [if_neg hc] at h
    exact Option.noConfusion h

lemma tailWith_some {rest g2 g3 : List Char} {k : Nat}
    (h : tailWith rest k = some (g2, g3)) :
    (g2.length = k ∧ g2.all isAsciiDigit = true) ∧
    (2 ≤ g3.length ∧ g3.length ≤ 4 ∧ g3.all isAsciiDigit = true) := by
  rw [tailWith] at h
  rcases h12 : matchG12 rest k with _ | ⟨g2', r2⟩ <;> simp only [h12] at h
  · exact Option.noConfusion h
  · rcases h3 : matchG3 r2 with _ | g3' <;> simp only [h3] at h
    · exact Option.noConfusion h
    · have hpair := Option.some_inj.mp h
      have hg2 : g2' = g2 := congrArg Prod.fst hpair
      have hg3 : g3' = g3 := congrArg Prod.snd hpair
      subst hg2; subst hg3
      exact ⟨matchG12_some h12, matchG3_some h3⟩

lemma matchTail_some {rest g2 g3 : List Char} (h : matchTail rest = some (g2, g3)) :
    (1 ≤ g2.length ∧ g2.length ≤ 2 ∧ g2.all isAsciiDigit = true) ∧
    (2 ≤ g3.length ∧ g3.length ≤ 4 ∧ g3.all isAsciiDigit = true) := by
  rw [matchTail] at h
  rcases h2 : tailWith rest 2 with _ | x <;> simp only [h2] at h
  · obtain ⟨⟨hl, ha⟩, h3⟩ := tailWith_some h
    exact ⟨⟨by omega, by omega, ha⟩, h3⟩
  · obtain rfl := Option.some_inj.mp h
    obtain ⟨⟨hl, ha⟩, h3⟩ := tailWith_some h2
    exact ⟨⟨by omega, by omega, ha⟩, h3⟩

lemma dateAtWith_some {l g1 g2 g3 : List Char} {k : Nat}
    (h : dateAtWith l k = some (g1, g2, g3)) :
    (g1.length = k ∧ g1.all isAsciiDigit = true) ∧
    (1 ≤ g2.length ∧ g2.length ≤ 2 ∧ g2.all isAsciiDigit = true) ∧
    (2 ≤ g3.length ∧ g3.length ≤ 4 ∧ g3.all isAsciiDigit = true) := by
  rw [dateAtWith] at h
  rcases h12 : matchG12 l k with _ | ⟨g1', r1⟩ <;> simp only [h12] at h
  · exact Option.noConfusion h
  · rcases ht : matchTail r1 with _ | ⟨g2', g3'⟩ <;> simp only [ht] at h
    · exact Option.noConfusion h
    · have hpair := Option.some_inj.mp h
      have hg1 : g1' = g1 := congrArg Prod.fst hpair
      have hg2 : g2' = g2 := congrArg (fun p => p.2.1) hpair
      have hg3 : g3' = g3 := congrArg (fun p => p.2.2) hpair
      subst hg1; subst hg2; subst hg3
      obtain ⟨ha, hb⟩ := matchTail_some ht
      exact ⟨matchG12_some h12, ha, hb⟩

lemma matchDateAt_some {l g1 g2 g3 : List Char} (h : matchDateAt l = some (g1, g2, g3)) :
    (1 ≤ g1.length ∧ g1.length ≤ 2 ∧ g1.all isAsciiDigit = true) ∧
    (1 ≤ g2.length ∧ g2.length ≤ 2 ∧ g2.all isAsciiDigit = true) ∧
    (2 ≤ g3.length ∧ g3.length ≤ 4 ∧ g3.all isAsciiDigit = true) := by
  rw [matchDateAt] at h
  rcases h2 : dateAtWith l 2 with _ | x <;> simp only [h2] at h
  · obtain ⟨⟨hl, ha⟩, hrest⟩ := dateAtWith_some h
    exact ⟨⟨by omega, by omega, ha⟩, hrest⟩
  · obtain rfl := Option.some_inj.mp h
    obtain ⟨⟨hl, ha⟩, hrest⟩ := dateAtWith_some h2
    exact ⟨⟨by omega, by omega, ha⟩, hrest⟩

lemma reSearchDate_some : ∀ {l g1 g2 g3 : List Char},
    reSearchDate l = some (g1, g2, g3) →
    (1 ≤ g1.length ∧ g1.length ≤ 2 ∧ g1.all isAsciiDigit = true) ∧
    (1 ≤ g2.length ∧ g2.length ≤ 2 ∧ g2.all isAsciiDigit = true) ∧
    (2 ≤ g3.length ∧ g3.length ≤ 4 ∧ g3.all isAsciiDigit = true) := by
  intro l
  induction l with
  | nil => intro g1 g2 g3 h; exact Option.noConfusion h
  | cons c rest ih =>
    intro g1 g2 g3 h
    rw [reSearchDate] at h
    rcases hm : matchDateAt (c :: rest) with _ | x <;> simp only [hm] at h
    · exact ih h
    · obtain rfl := Option.some_inj.mp h
      exact matchDateAt_some hm

lemma intDec_nonneg {i : Int} (h : 0 ≤ i) : intDec i = natDec i.toNat := by
  rw [intDec, if_neg (by omega)]

lemma digitsVal_lt_of_len {g : List Char} {w : Nat} (ha : g.all isAsciiDigit = true)
    (hl : g.length ≤ w) : digitsVal g < 10 ^ w :=
  lt_of_lt_of_le (digitsVal_lt ha) (Nat.pow_le_pow_right (by omega) hl)

lemma normalize_date_guess_shape (nowyy : Nat) (s : Option (List Char)) :
    guessShapeOk (normalize_date_guess nowyy s) = true := by
  rcases s with _ | l
  · rfl
  · rw [normalize_date_guess]
    by_cases hl : l = []
    · rw [if_pos hl]; rfl
    · rw [if_neg hl]
      rcases hr : reSearchDate l with _ | ⟨g1, g2, g3⟩
      · rfl
      · obtain ⟨⟨h1a, h1b, h1c⟩, ⟨h2a, h2b, h2c⟩, ⟨h3a, h3b, h3c⟩⟩ := reSearchDate_some hr
        have hdd : digitsVal g1 < 10 ^ 2 := digitsVal_lt_of_len h1c h1b
        have hmm : digitsVal g2 < 10 ^ 2 := digitsVal_lt_of_len h2c h2b
        have hyy0 : digitsVal g3 < 10 ^ 4 := digitsVal_lt_of_len h3c h3b
        have hyy : (if digitsVal g3 < 100 then
            (if digitsVal g3 ≤ nowyy then 2000 + digitsVal g3 else 1900 + digitsVal g3)
            else digitsVal g3) < 10 ^ 4 := by
          split
          · split <;> omega
          · exact hyy0
        obtain ⟨hy4, hy4a⟩ := pyFmtZ_len (by omega) hyy
        obtain ⟨hm2, hm2a⟩ := pyFmtZ_len (by omega) hmm
        obtain ⟨hd2, hd2a⟩ := pyFmtZ_len (by omega) hdd
        exact dateShapeDigits_parts hy4 hy4a hm2 hm2a hd2 hd2a

lemma normalize_date_mrz_shape (nowyy : Nat) (t : Option (List Char)) :
    mrzShapeOk (normalize_date_mrz nowyy t) = true := by
  rcases t with _ | l
  · rfl
  · rw [normalize_date_mrz]
    by_cases h6 : l.length = 6
    · rw [if_neg (by omega)]
      rcases hp : pythonInt (l.take 2) with _ | yy
      · rfl
      · have hb : -9 ≤ yy ∧ yy ≤ 99 := by
          apply pythonInt_bounds hp
          simp [List.length_take]
        have hcy : 0 ≤ (if yy ≤ (nowyy : Int) then 2000 else 1900) + yy := by
          split <;> omega
        have hrange : 1000 ≤ ((if yy ≤ (nowyy : Int) then 2000 else 1900) + yy).toNat ∧
            ((if yy ≤ (nowyy : Int) then 2000 else 1900) + yy).toNat ≤ 9999 := by
          split <;> omega
        have hy4 : (natDec ((if yy ≤ (nowyy : Int) then 2000 else 1900) + yy).toNat).length = 4 :=
          natDec_len_eq4 hrange.1 hrange.2
        have hy4a := natDec_all ((if yy ≤ (nowyy : Int) then 2000 else 1900) + yy).toNat
        have hm2 : ((l.drop 2).take 2).length = 2 := by
          simp [List.length_take, List.length_drop, h6]
        have hd2 : ((l.drop 4).take 2).length = 2 := by
          simp [List.length_take, List.length_drop, h6]
        show mrzShapeOk (Except.ok (some _)) = true
        rw [show mrzShapeOk (Except.ok (some (intDec ((if yy ≤ (nowyy : Int) then 2000 else 1900) + yy) ++
          '-' :: ((l.drop 2).take 2 ++ '-' :: (l.drop 4).take 2)))) =
          dateShapeYear (intDec ((if yy ≤ (nowyy : Int) then 2000 else 1900) + yy) ++
          '-' :: ((l.drop 2).take 2 ++ '-' :: (l.drop 4).take 2)) from rfl]
        rw [intDec_nonneg hcy]
        exact dateShapeYear_parts hy4 hy4a hm2 hd2
    · rw [if_pos (by omega)]
      rfl

lemma sanitize_line_vocab (l : List Char) : (sanitize_line l).all isMrzVocab = true := by
  rw [List.all_eq_true]
  intro c hc
  exact (List.mem_filter.mp hc).2

lemma coerce30_fastLineOk {x : List Char} (hx : x.all isMrzVocab = true) :
    fastLineOk (coerce30 x) = true := by
  have hlen : (coerce30 x).length = 30 := by
    simp only [coerce30, List.length_append, List.length_take, List.length_replicate]
    omega
  have hall : (coerce30 x).all isMrzVocab = true := by
    rw [List.all_eq_true]
    intro c hc
    rw [coerce30, List.mem_append] at hc
    rcases hc with hc | hc
    · rw [List.all_eq_true] at hx
      exact hx c (List.Sublist.mem hc (List.take_sublist _ _))
    · rw [List.eq_of_mem_replicate hc]
      decide
  simp [fastLineOk, hlen, hall]

/-- C1: the claim says `normalize_td1_line` coerces every input to
exactly 30 characters without raising.  In the code the padding branch
evaluates `s.length`, an attribute Python strings do not have, so every
input whose sanitized form is shorter than 30 characters raises
`AttributeError` instead of being padded: evaluating the function at
the line "AB12" (sanitized length 4) raises. -/
theorem normalize_td1_line_short_input_raises :
    normalize_td1_line "AB12".data = Except.error "AttributeError" ∧
    (sanitize_line "AB12".data).length = 4 := ⟨rfl, rfl⟩

/-- C2 counterexample: a 6-character input that is not all digits does
not yield null — non-digits in the month/day positions are copied into
a non-null result ("24AB01" gives "2024-AB-01"), and non-digits in the
first two positions raise `ValueError` ("AB0101"). -/
theorem normalize_date_mrz_six_char_nondigit_cex :
    normalize_date_mrz 26 (some "24AB01".data) = Except.ok (some "2024-AB-01".data) ∧
    normalize_date_mrz 26 (some "24AB01".data) ≠ Except.ok none ∧
    normalize_date_mrz 26 (some "AB0101".data) = Except.error "ValueError" := by
  refine ⟨rfl, ?_, rfl⟩
  intro h
  have h2 : (some "2024-AB-01".data : Option (List Char)) = none :=
    Except.ok.inj ((rfl : Except.ok (some "2024-AB-01".data) =
      normalize_date_mrz 26 (some "24AB01".data)).trans h)
  exact Option.noConfusion h2

/-- C2 as amended: for a null input or an input whose length is not 6,
`normalize_date_mrz` returns null and never raises; 6-character inputs
are not digit-validated. -/
theorem normalize_date_mrz_null_on_wrong_length (nowyy : Nat) (l : List Char)
    (h : l.length ≠ 6) :
    normalize_date_mrz nowyy (some l) = Except.ok none ∧
    normalize_date_mrz nowyy none = Except.ok none := by
  constructor
  · rw [normalize_date_mrz, if_pos h]
  · rfl

/-- Witness for C2's amended theorem at the concrete input "1234". -/
theorem normalize_date_mrz_null_on_wrong_length_witness :
    ("1234".data.length ≠ 6) ∧
    normalize_date_mrz 7 (some "1234".data) = Except.ok none :=
  ⟨by decide, (normalize_date_mrz_null_on_wrong_length 7 ("1234".data) (by decide)).1⟩

/-- C3: on every valid all-digit 6-character YYMMDD input, the output
year is `century + yy` where `yy` is the value of the first two digits
and the century is 2000 exactly when `yy ≤ nowyy` (the current year's
last two digits) and 1900 otherwise; the last two digits of the output
year equal `yy`, and the month/day slices are copied verbatim. -/
theorem normalize_date_mrz_century_rule (nowyy : Nat) (l : List Char)
    (h6 : l.length = 6) (hd : l.all isAsciiDigit = true) :
    normalize_date_mrz nowyy (some l) =
      Except.ok (some (natDec ((if digitsVal (l.take 2) ≤ nowyy then 2000 else 1900) +
        digitsVal (l.take 2)) ++ '-' :: ((l.drop 2).take 2 ++ '-' :: (l.drop 4).take 2))) ∧
    ((if digitsVal (l.take 2) ≤ nowyy then 2000 else 1900) + digitsVal (l.take 2)) % 100 =
      digitsVal (l.take 2) := by
  refine ⟨normalize_date_mrz_valid_eq nowyy l h6 hd, ?_⟩
  have htkall : (l.take 2).all isAsciiDigit = true := by
    rw [List.all_eq_true] at hd ⊢
    intro c hc
    exact hd c (List.mem_of_mem_take hc)
  have hv100 : digitsVal (l.take 2) < 100 := by
    have h1 := digitsVal_lt htkall
    have h2 : (l.take 2).length = 2 := by simp [List.length_take, h6]
    rw [h2] at h1
    simpa using h1
  split <;> omega

/-- Witness for C3 at the spec's examples: with the clock reading 2024,
"990101" yields "1999-01-01" and "240101" yields "2024-01-01". -/
theorem normalize_date_mrz_century_rule_witness :
    normalize_date_mrz 24 (some "990101".data) = Except.ok (some "1999-01-01".data) ∧
    normalize_date_mrz 24 (some "240101".data) = Except.ok (some "2024-01-01".data) := by
  constructor
  · exact ((normalize_date_mrz_century_rule 24 ("990101".data) (by decide) (by decide)).1).trans
      (by rfl)
  · exact ((normalize_date_mrz_century_rule 24 ("240101".data) (by decide) (by decide)).1).trans
      (by rfl)

/-- C4 counterexample: `normalize_date_mrz` does not range-validate the
month/day: the all-digit input "249999" yields "2024-99-99", which is
not a valid ISO calendar date, contradicting the claimed invariant. -/
theorem date_normalizers_out_of_range_cex :
    normalize_date_mrz 26 (some "249999".data) = Except.ok (some "2024-99-99".data) ∧
    spec_validIsoDate "2024-99-99".data = false ∧
    normalize_date_guess 26 (some "99.99.99".data) = some "1999-99-99".data ∧
    spec_validIsoDate "1999-99-99".data = false := ⟨rfl, rfl, rfl, rfl⟩

/-- C4 as amended: every date either normalizer produces is absent (or,
for `normalize_date_mrz`, an exception) or a ten-character
year-month-day string with a four-digit year and dashes at positions 4
and 7 — but the month and day components are not range-validated, so
the result need not be a valid calendar date. -/
theorem date_normalizers_shape_only (nowyy : Nat) (s t : Option (List Char)) :
    guessShapeOk (normalize_date_guess nowyy s) = true ∧
    mrzShapeOk (normalize_date_mrz nowyy t) = true :=
  ⟨normalize_date_guess_shape nowyy s, normalize_date_mrz_shape nowyy t⟩

/-- C5: `try_read_mrz` tries its attempts in the fixed declared order —
psm 6, 7, 11 at 0° rotation, then psm 6, 7, 11 at 180° — and if the
`read_mrz` oracle fails on the first `n` attempts and succeeds on
attempt `n + 1`, the call returns that first non-null result having
invoked exactly the first `n + 1` attempts and no more. -/
theorem try_read_mrz_first_success {α : Type} (read : Bool → Nat → Option α)
    (n : Nat) (v : α) (hn : n < 6)
    (hfail : ∀ i, i < n → read (attAt i).1 (attAt i).2 = none)
    (hsucc : read (attAt n).1 (attAt n).2 = some v) :
    try_read_mrz read [6, 7, 11] = (some v, (attemptOrder [6, 7, 11]).take (n + 1)) ∧
    attemptOrder [6, 7, 11] =
      [(false, 6), (false, 7), (false, 11), (true, 6), (true, 7), (true, 11)] := by
  refine ⟨?_, rfl⟩
  interval_cases n
  · have hs : read false 6 = some v := hsucc
    simp [try_read_mrz, runAttempts, attemptOrder, hs]
  · have h0 : read false 6 = none := hfail 0 (by omega)
    have hs : read false 7 = some v := hsucc
    simp [try_read_mrz, runAttempts, attemptOrder, h0, hs]
  · have h0 : read false 6 = none := hfail 0 (by omega)
    have h1 : read false 7 = none := hfail 1 (by omega)
    have hs : read false 11 = some v := hsucc
    simp [try_read_mrz, runAttempts, attemptOrder, h0, h1, hs]
  · have h0 : read false 6 = none := hfail 0 (by omega)
    have h1 : read false 7 = none := hfail 1 (by omega)
    have h2 : read false 11 = none := hfail 2 (by omega)
    have hs : read true 6 = some v := hsucc
    simp [try_read_mrz, runAttempts, attemptOrder, h0, h1, h2, hs]
  · have h0 : read false 6 = none := hfail 0 (by omega)
    have h1 : read false 7 = none := hfail 1 (by omega)
    have h2 : read false 11 = none := hfail 2 (by omega)
    have h3 : read true 6 = none := hfail 3 (by omega)
    have hs : read true 7 = some v := hsucc
    simp [try_read_mrz, runAttempts, attemptOrder, h0, h1, h2, h3, hs]
  · have h0 : read false 6 = none := hfail 0 (by omega)
    have h1 : read false 7 = none := hfail 1 (by omega)
    have h2 : read false 11 = none := hfail 2 (by omega)
    have h3 : read true 6 = none := hfail 3 (by omega)
    have h4 : read true 7 = none := hfail 4 (by omega)
    have hs : read true 11 = some v := hsucc
    simp [try_read_mrz, runAttempts, attemptOrder, h0, h1, h2, h3, h4, hs]

/-- Witness for C5: a backend succeeding only on the second attempt
(psm 7 at 0°) is invoked exactly twice. -/
theorem try_read_mrz_first_success_witness :
    try_read_mrz (fun rot p => if !rot && p == 7 then some 42 else none) [6, 7, 11] =
      (some 42, [(false, 6), (false, 7)]) := by
  have h := try_read_mrz_first_success
    (fun rot p => if !rot && p == 7 then some (42 : Nat) else none) 1 42 (by omega)
    (fun i hi => by interval_cases i; rfl) rfl
  exact h.1.trans (by rfl)

/-- C6 counterexample: when every attempt on the full image fails, the
cascade returns null directly after the six full-image attempts
(psm 6, 7, 11 at 0° and at 180°); no further attempts against enhanced
bottom-band crops are made before returning null. -/
theorem try_read_mrz_no_crop_cex :
    try_read_mrz (fun _ _ => (none : Option Nat)) [6, 7, 11] =
      (none, [(false, 6), (false, 7), (false, 11), (true, 6), (true, 7), (true, 11)]) ∧
    ([(false, 6), (false, 7), (false, 11), (true, 6), (true, 7), (true, 11)] :
      List (Bool × Nat)).length = 6 := ⟨rfl, rfl⟩

/-- C6 as amended: when every OCR attempt on the full image fails (all
three page-segmentation modes at 0° and 180°), `try_read_mrz` returns
null immediately — its attempt trace is exactly the six full-image
attempts, with no bottom-band crop retries. -/
theorem try_read_mrz_exhausted_returns_null {α : Type} (read : Bool → Nat → Option α)
    (h : ∀ i, i < 6 → read (attAt i).1 (attAt i).2 = none) :
    try_read_mrz read [6, 7, 11] = (none, attemptOrder [6, 7, 11]) := by
  have h0 : read false 6 = none := h 0 (by omega)
  have h1 : read false 7 = none := h 1 (by omega)
  have h2 : read false 11 = none := h 2 (by omega)
  have h3 : read true 6 = none := h 3 (by omega)
  have h4 : read true 7 = none := h 4 (by omega)
  have h5 : read true 11 = none := h 5 (by omega)
  simp [try_read_mrz, runAttempts, attemptOrder, h0, h1, h2, h3, h4, h5]

/-- Witness for C6's amended theorem with an always-failing backend. -/
theorem try_read_mrz_exhausted_returns_null_witness :
    try_read_mrz (fun _ _ => (none : Option Bool)) [6, 7, 11] =
      (none, attemptOrder [6, 7, 11]) :=
  try_read_mrz_exhausted_returns_null (fun _ _ => none) (fun _ _ => rfl)

/-- C7 counterexample: the fallback post-processing performs no
collapsing of filler runs longer than 15 — an OCR line whose sanitized
form contains a run of 24 fillers is kept verbatim and then padded,
leaving a run of 26 consecutive fillers in the output. -/
theorem ocr_fast_post_no_filler_collapse_cex :
    ocr_bottom_mrz_lines_fast_post "AAAA<<<<<<<<<<<<<<<<<<<<<<<<".data =
      ["AAAA<<<<<<<<<<<<<<<<<<<<<<<<<<".data] ∧
    maxFillerRun "AAAA<<<<<<<<<<<<<<<<<<<<<<<<<<".data = 26 ∧
    15 < maxFillerRun "AAAA<<<<<<<<<<<<<<<<<<<<<<<<<<".data := ⟨rfl, rfl, by decide⟩

/-- C7 as amended: the fallback OCR post-processing sanitizes each line
to the vocabulary A-Z, 0-9, `<`, retains only the last 3 non-blank
lines, and coerces each retained line to exactly 30 characters by
truncation or filler-padding; no filler-run collapsing is performed. -/
theorem ocr_fast_post_sanitize_last3_pad (txt : List Char) :
    (ocr_bottom_mrz_lines_fast_post txt).length ≤ 3 ∧
    (ocr_bottom_mrz_lines_fast_post txt).all fastLineOk = true := by
  rw [ocr_bottom_mrz_lines_fast_post]
  set lines := ((pySplitlines txt).filter lineNonBlank).map sanitize_line with hlines
  constructor
  · by_cases h : lines.length > 3
    · rw [if_pos h]
      simp only [List.length_map, List.length_drop]
      omega
    · rw [if_neg h]
      simp only [List.length_map]
      omega
  · rw [List.all_eq_true]
    intro out hout
    rw [List.mem_map] at hout
    obtain ⟨x, hx, rfl⟩ := hout
    have hx' : x ∈ lines := by
      by_cases h : lines.length > 3
      · rw [if_pos h] at hx
        exact List.Sublist.mem hx (List.drop_sublist _ _)
      · rw [if_neg h] at hx
        exact hx
    have hxv : x.all isMrzVocab = true := by
      rw [hlines, List.mem_map] at hx'
      obtain ⟨y, hy, rfl⟩ := hx'
      exact sanitize_line_vocab y
    exact coerce30_fastLineOk hxv

/-- C8 counterexample: on back-face text consisting of the line
"CALLE MAYOR 12" followed by the line "28013 MADRID (MADRID)", the
extractor does not produce the claimed field split: the digit-bearing
CP line is also judged address-like and joined into the domicilio, and
locality/province stay empty because both lines contain digits. -/
theorem extract_address_scenario_cex :
    extract_address_residence "CALLE MAYOR 12\n28013 MADRID (MADRID)".data ≠
      (some "CALLE MAYOR 12".data, some "28013".data, some "MADRID".data,
        some "MADRID".data) := by
  intro h
  have h1 : (some "CALLE MAYOR 12 28013 MADRID (MADRID)".data : Option (List Char)) =
      some "CALLE MAYOR 12".data :=
    congrArg Prod.fst ((rfl :
      (some "CALLE MAYOR 12 28013 MADRID (MADRID)".data, some "28013".data,
        (none : Option (List Char)), (none : Option (List Char))) =
      extract_address_residence "CALLE MAYOR 12\n28013 MADRID (MADRID)".data).trans h)
  have h2 := Option.some_inj.mp h1
  have h3 : ("CALLE MAYOR 12 28013 MADRID (MADRID)".data).length =
      ("CALLE MAYOR 12".data).length := congrArg List.length h2
  simp at h3

/-- C8 as amended: on that input the extractor yields
domicilio = "CALLE MAYOR 12 28013 MADRID (MADRID)" (both lines joined,
because the digit-bearing second line also counts as address-like),
cp = "28013", and no localidad and no provincia (the
locality/province pass only considers digit-free lines). -/
theorem extract_address_scenario_actual :
    extract_address_residence "CALLE MAYOR 12\n28013 MADRID (MADRID)".data =
      (some "CALLE MAYOR 12 28013 MADRID (MADRID)".data, some "28013".data,
        none, none) := rfl

/-- C9 counterexample: with no nationality label anywhere and no MRZ
nationality available, the residence country is not absent — the code
substitutes the default "ESPAÑA". -/
theorem extract_country_default_cex :
    extract_country [] [] none = "ESPAÑA".data := rfl

/-- C9 as amended: the four address fields are independently optional —
a text with no matching line yields every one of them absent, and that
is not an error — but the residence country is never absent: whenever
the NACIONALIDAD label regex finds no match and no MRZ nationality is
available, `extract_country` returns the default "ESPAÑA" instead of
an absent field. -/
theorem back_fields_optional_country_defaults (front back : List Char)
    (h : searchNacionalidad (upclean front) = none) :
    extract_address_residence [] = (none, none, none, none) ∧
    extract_country front back none = "ESPAÑA".data := by
  refine ⟨rfl, ?_⟩
  rw [extract_country]
  simp only [h]

/-- Witness for C9's amended theorem at empty front/back text. -/
theorem back_fields_optional_country_defaults_witness :
    searchNacionalidad (upclean []) = none ∧
    extract_country [] [] none = "ESPAÑA".data :=
  ⟨rfl, (back_fields_optional_country_defaults [] [] rfl).2⟩

/-- C10 counterexample: the full extraction cascade is selected not
only by fast=0 — any value other than "1" disables fast mode, e.g.
passing fast=2. -/
theorem mrz_fast_flag_nonzero_cex :
    mrz_fast_flag (some "2".data) = false ∧ "2".data ≠ "0".data := by
  exact ⟨rfl, by decide⟩

/-- C10 as amended: the fast query parameter defaults to "1"; in fast
mode the response has ok = true and type = "TD1" with every identity
field empty (numero, nacionalidad, apellidos, nombres and sexo empty,
nacimiento and expiracion null) regardless of the OCR output; and the
full grammar-library cascade runs exactly when the parameter is passed
with any value other than "1" (such as fast=0). -/
theorem mrz_fast_mode_contract (lines : List (List Char)) (raw v : List Char) :
    mrz_fast_flag none = true ∧
    (mrz_fast_response lines raw).ok = true ∧
    (mrz_fast_response lines raw).type = "TD1".data ∧
    (mrz_fast_response lines raw).numero = [] ∧
    (mrz_fast_response lines raw).nacionalidad = [] ∧
    (mrz_fast_response lines raw).apellidos = [] ∧
    (mrz_fast_response lines raw).nombres = [] ∧
    (mrz_fast_response lines raw).sexo = [] ∧
    (mrz_fast_response lines raw).nacimiento = none ∧
    (mrz_fast_response lines raw).expiracion = none ∧
    (mrz_fast_flag (some v) = false ↔ v ≠ "1".data) := by
  refine ⟨rfl, rfl, rfl, rfl, rfl, rfl, rfl, rfl, rfl, rfl, ?_⟩
  simp [mrz_fast_flag]

/-- Witness for C10's amended theorem: with fast=0 the fast flag is
off, and the fast response on empty OCR output reports ok and TD1. -/
theorem mrz_fast_mode_contract_witness :
    mrz_fast_flag (some "0".data) = false ∧
    (mrz_fast_response [] []).ok = true := by
  have h := mrz_fast_mode_contract [] [] ("0".data)
  exact ⟨(h.2.2.2.2.2.2.2.2.2.2).mpr (by decide), h.2.1⟩
